import Mathlib

/-!
Shallow embedding of the todo_backend repository (src/server.js,
src/user/userRoutes.js, src/unnamed/part_000, src/unnamed/part_001).

Conventions of the embedding:
* MongoDB documents become Lean structures; ObjectIds and all other ids are
  `String`s, with `isValidObjectIdStr` modelling which strings the
  `mongoose.Types.ObjectId` constructor (and query casting) accepts.
* Dates become `Nat` ("now" is passed explicitly to every operation that
  reads the clock).
* Each HTTP handler becomes a pure function `DB → DB × Except ApiError α`:
  the returned `DB` is the store after the request (unchanged on every error
  path on which the code has not yet written), and the `Except` is the HTTP
  response — `.ok` for the 2xx body, `.error` for the error response.
* A thrown exception caught by a handler's `catch` is `ApiError.internalError`
  (HTTP 500), as in the code.
-/

namespace TodoBackend

/-- The error taxonomy of the HTTP layer: 401, 400, 404, 403, 500,
each carrying the message string the handler sends. -/
inductive ApiError where
  | unauthenticated (msg : String)
  | badRequest (msg : String)
  | notFound (msg : String)
  | forbidden (msg : String)
  | internalError (msg : String)
deriving Repr, DecidableEq

/-- User document (src/unnamed/part_001, `UserSchema`). -/
structure User where
  id : String
  name : String
  email : String
  password : Option String
  picture : Option String
  isGooglePicture : Bool
deriving Repr, DecidableEq

/-- Todo document (src/server.js lines 68-78, `TodoSchema`).
`user` is the owner reference; `assignedUsers` the assignee references. -/
structure Todo where
  id : String
  title : String
  completed : Bool
  createdAt : Nat
  updatedAt : Option Nat
  completedAt : Option Nat
  user : String
  assignedUsers : List String
deriving Repr, DecidableEq

/-- DeletedTodo document (src/server.js lines 81-92, `DeletedTodoSchema`). -/
structure DeletedTodo where
  id : String
  title : String
  completed : Bool
  createdAt : Option Nat
  updatedAt : Option Nat
  completedAt : Option Nat
  deletedAt : Nat
  originalId : String
  user : String
deriving Repr, DecidableEq

/-- Comment document. The schema file (src/models/Comment) is not under src/;
the shape is taken from its uses in src/server.js (fields `todoId`, `user`,
`content`, `createdAt`) and from the spec's data model ("belongs to exactly
one Todo (by reference), content, author, createdAt"). `todoId` is stored as
the raw path-parameter string, as the handlers pass it through unchanged. -/
structure Comment where
  id : String
  todoId : String
  user : String
  content : String
  createdAt : Nat
deriving Repr, DecidableEq

/-- The document store. -/
structure DB where
  users : List User
  todos : List Todo
  deletedTodos : List DeletedTodo
  comments : List Comment
deriving Repr, DecidableEq

/-- The constructor `mongoose.Types.ObjectId(id)` accepts a 24-character hex string or any
12-character string; everything else throws (and query casting of `_id`
likewise throws a CastError). -/
def isHexChar (c : Char) : Bool :=
  c.isDigit || ('a' ≤ c && c ≤ 'f') || ('A' ≤ c && c ≤ 'F')

/-- Whether a path-parameter string is a well-formed ObjectId. -/
def isValidObjectIdStr (s : String) : Bool :=
  (s.length == 24 && s.toList.all isHexChar) || s.length == 12

/-- Models `User.findOne({_id: id})` / `User.findById(id)`. -/
def lookupUser (db : DB) (id : String) : Option User :=
  db.users.find? (fun u => u.id = id)

/-- Models `Todo.findById(todoId)` — no owner scoping. -/
def findTodo (db : DB) (todoId : String) : Option Todo :=
  db.todos.find? (fun t => t.id = todoId)

/-- Models `Todo.findOne({_id: todoId, user: requester})` — scoped to the owner. -/
def findOwnedTodo (db : DB) (requester todoId : String) : Option Todo :=
  db.todos.find? (fun t => t.id = todoId && t.user = requester)

/-- Models `DeletedTodo.findOne({_id: id, user: requester})`. -/
def findOwnedDeletedTodo (db : DB) (requester id : String) : Option DeletedTodo :=
  db.deletedTodos.find? (fun t => t.id = id && t.user = requester)

section PasswordPolicy

/-- Models `/[A-Z]/.test(password)` (src/user/userRoutes.js line 148). -/
def hasUpperCase (p : String) : Bool :=
  p.toList.any (fun c => 'A' ≤ c && c ≤ 'Z')

/-- Models `/[a-z]/.test(password)` (line 149). -/
def hasLowerCase (p : String) : Bool :=
  p.toList.any (fun c => 'a' ≤ c && c ≤ 'z')

/-- Models `/\d/.test(password)` (line 150). -/
def hasNumbers (p : String) : Bool :=
  p.toList.any (fun c => '0' ≤ c && c ≤ '9')

/-- The character class of `/[!@#$%^&*(),.?":{}|<>]/` (line 151). -/
def specialChars : List Char := "!@#$%^&*(),.?\":\x7b\x7d|<>".toList

/-- Models the test of the special-character regex (line 151). -/
def hasSpecialChar (p : String) : Bool :=
  p.toList.any (fun c => specialChars.contains c)

def lengthErrMsg : String := "Password must be at least 8 characters long"
def upperErrMsg : String := "Password must contain at least one uppercase letter"
def lowerErrMsg : String := "Password must contain at least one lowercase letter"
def numberErrMsg : String := "Password must contain at least one number"
def specialErrMsg : String :=
  "Password must contain at least one special character (!@#$%^&*(),.?\":\x7b\x7d|<>)"

/-- Function `validatePassword` (src/user/userRoutes.js lines 146-167): collects one
message per violated rule, in source order. -/
def validatePassword (password : String) : List String :=
  (if password.length < 8 then [lengthErrMsg] else []) ++
  (if !hasUpperCase password then [upperErrMsg] else []) ++
  (if !hasLowerCase password then [lowerErrMsg] else []) ++
  (if !hasNumbers password then [numberErrMsg] else []) ++
  (if !hasSpecialChar password then [specialErrMsg] else [])

/-- The password gate of `POST /register` (src/user/userRoutes.js lines
188-195): `none` when the password passes, otherwise the single 400 message
joining every violated rule. -/
def registerPasswordGate (password : String) : Option String :=
  let passwordErrors := validatePassword password
  if passwordErrors.length > 0 then
    some ("Password requirements not met:\n\n" ++
      String.intercalate "\n" passwordErrors)
  else
    none

end PasswordPolicy

section Views

/-- The `{id, name, avatar}` projection of a user used in responses. -/
structure UserView where
  id : String
  name : String
  avatar : Option String
deriving Repr, DecidableEq

/-- Models `avatar: user.picture || null` — JS `||` collapses the falsy empty
string to null as well as undefined. -/
def avatarOf (u : User) : Option String :=
  match u.picture with
  | some s => if s = "" then none else some s
  | none => none

/-- Owner/assignee projection with the `|| null` avatar collapse
(used by GET /api/todos, PUT /api/todos/:id, comments). -/
def userView (u : User) : UserView :=
  { id := u.id, name := u.name, avatar := avatarOf u }

/-- Assignment-route projection: `avatar: user.picture` without `|| null`
(src/server.js lines 570-574 and 600-604). -/
def assignView (u : User) : UserView :=
  { id := u.id, name := u.name, avatar := u.picture }

/-- The formatted todo of GET /api/todos (src/server.js lines 131-154). -/
structure TodoView where
  id : String
  title : String
  completed : Bool
  createdAt : Nat
  updatedAt : Option Nat
  completedAt : Option Nat
  owner : UserView
  isCreator : Bool
  isAssigned : Bool
  assignedUsers : List UserView
deriving Repr, DecidableEq

/-- The formatted comment of the comment routes (src/server.js 385-394,
426-435). -/
structure CommentView where
  id : String
  content : String
  createdAt : Nat
  user : UserView
deriving Repr, DecidableEq

end Views

section AuthGate

/-- JS `String.prototype.replace` with a string pattern replaces only the
first occurrence (unlike Lean's `String.replace`). -/
def replaceFirstOccurrence (s pat : String) : String :=
  match s.splitOn pat with
  | [] => s
  | [x] => x
  | x :: y :: rest => x ++ y ++ String.join (rest.map (fun r => pat ++ r))

/-- Models `req.header("Authorization")?.replace("Bearer ", "")` followed by the
`if (!token)` falsiness check: `none` exactly when the middleware throws
for a missing token (header absent, or the stripped token is empty). -/
def extractBearerToken (header : Option String) : Option String :=
  match header with
  | none => none
  | some h =>
    let token := replaceFirstOccurrence h "Bearer "
    if token = "" then none else some token

/-- The `auth` middleware (src/user/userRoutes.js lines 18-41).
`secretSet` models `process.env.JWT_SECRET` being configured (src/server.js
lines 618-620 make the process refuse to start without it); `verify` models
`jwt.verify` under that secret, returning the `_id` claim on success and
`none` when the token is malformed, badly signed or expired. On success the
resolved user is attached to the request (returned); every failure is the
single 401 response. -/
def authGate (db : DB) (secretSet : Bool) (verify : String → Option String)
    (header : Option String) : Except ApiError User :=
  match extractBearerToken header with
  | none => .error (.unauthenticated "Please authenticate.")
  | some token =>
    if !secretSet then .error (.unauthenticated "Please authenticate.")
    else
      match verify token with
      | none => .error (.unauthenticated "Please authenticate.")
      | some uid =>
        match lookupUser db uid with
        | none => .error (.unauthenticated "Please authenticate.")
        | some u => .ok u

end AuthGate

section TodoRoutes

/-- Mongo's `findOneAndUpdate` touches only the first matching document:
update the first element satisfying `p` by `f`, leave the rest alone. -/
def updateFirst (p : α → Bool) (f : α → α) : List α → List α
  | [] => []
  | x :: xs => if p x then f x :: xs else x :: updateFirst p f xs

/-- GET /api/todos visibility filter (src/server.js lines 122-124):
`$or: [{user: requester}, {assignedUsers: requester}]`. -/
def visibleTo (requester : String) (t : Todo) : Bool :=
  t.user == requester || t.assignedUsers.contains requester

/-- Models `populate("assignedUsers", ...)`: resolve each reference, dropping the
ones that no longer name a user (mongoose filters unmatched array refs). -/
def resolvedAssignees (db : DB) (t : Todo) : List User :=
  t.assignedUsers.filterMap (lookupUser db)

/-- Format one todo for GET /api/todos (src/server.js lines 131-154):
`none` models the TypeError thrown when the populated owner is missing
(which the catch turns into a 500). -/
def formatListTodo (db : DB) (requester : String) (t : Todo) : Option TodoView :=
  (lookupUser db t.user).map (fun owner =>
    let assignees := resolvedAssignees db t
    { id := t.id
      title := t.title
      completed := t.completed
      createdAt := t.createdAt
      updatedAt := t.updatedAt
      completedAt := t.completedAt
      owner := userView owner
      isCreator := t.user == requester
      isAssigned := assignees.any (fun u => u.id == requester)
      assignedUsers := assignees.map userView })

/-- GET /api/todos (src/server.js lines 117-166). -/
def listTodos (requester : String) (db : DB) :
    DB × Except ApiError (List TodoView) :=
  let visible := db.todos.filter (visibleTo requester)
  match visible.mapM (formatListTodo db requester) with
  | none => (db, .error (.internalError "Error fetching todos"))
  | some views => (db, .ok views)

/-- The update payload of PUT /api/todos/:id: the handler spreads `req.body`
and `$set`s it whole, and mongoose applies every key that is a Todo schema
path (`findOneAndUpdate` runs no validators by default; strict mode drops
keys outside the schema). One field per schema path the client can supply,
each `some` exactly when that key is in the body, with the already-cast
value; `updatedAtKey` records only the presence of an `updatedAt` key —
its value is always overwritten by the handler before the `$set` (the key's
own presence triggers the `updatedAt = now` branch); `completedAt` can carry
an explicit null; `otherKeys` are the body's non-schema keys (counted by
`Object.keys`, dropped by the `$set`) and never contains a schema path. -/
structure UpdatePayload where
  title : Option String
  completed : Option Bool
  createdAt : Option Nat
  updatedAtKey : Bool
  completedAt : Option (Option Nat)
  user : Option String
  assignedUsers : Option (List String)
  otherKeys : List String
deriving Repr, DecidableEq

/-- Models `Object.keys(updateData).some((key) => key !== "completed")`
(src/server.js line 273). -/
def hasKeyOtherThanCompleted (p : UpdatePayload) : Bool :=
  p.title.isSome || p.createdAt.isSome || p.updatedAtKey || p.completedAt.isSome ||
  p.user.isSome || p.assignedUsers.isSome || !p.otherKeys.isEmpty

/-- The `$set` applied by PUT /api/todos/:id (src/server.js lines 270-284):
every supplied schema field lands; `updatedAt = now` exactly when a
non-`completed` key is present (a client-supplied `updatedAt` value never
survives, since its own presence triggers the overwrite); the handler's
`completedAt = now`/`null` as `completed` is `true`/`false` overwrites a
client-supplied `completedAt`, which lands only when `completed` is absent. -/
def applyUpdate (now : Nat) (p : UpdatePayload) (t : Todo) : Todo :=
  { t with
    title := p.title.getD t.title
    completed := p.completed.getD t.completed
    createdAt := p.createdAt.getD t.createdAt
    user := p.user.getD t.user
    assignedUsers := p.assignedUsers.getD t.assignedUsers
    updatedAt := if hasKeyOtherThanCompleted p then some now else t.updatedAt
    completedAt :=
      match p.completed with
      | some b => if b then some now else none
      | none =>
        match p.completedAt with
        | some v => v
        | none => t.completedAt }

/-- PUT /api/todos/:id (src/server.js lines 268-319). Casting a malformed
`:id` in `findOneAndUpdate` throws, caught as 500; the query is scoped to
`{_id: todoId, user: requester}`; no match is the 404. The 200 body's
populate step is not modelled; the returned `Todo` is the updated document. -/
def updateTodo (now : Nat) (requester todoId : String) (p : UpdatePayload)
    (db : DB) : DB × Except ApiError Todo :=
  if !isValidObjectIdStr todoId then
    (db, .error (.internalError "CastError"))
  else
    match findOwnedTodo db requester todoId with
    | none => (db, .error (.notFound "Todo not found"))
    | some t =>
      let db' := { db with
        todos := updateFirst (fun x => x.id = todoId && x.user = requester)
          (applyUpdate now p) db.todos }
      (db', .ok (applyUpdate now p t))

/-- DELETE /api/todos/:id (src/server.js lines 322-347): a malformed `:id`
makes `new mongoose.Types.ObjectId(id)` throw before any lookup (500
"Delete failed"); otherwise `findOneAndDelete({_id, user: requester})`,
404 on no match, 204 on success. -/
def softDeleteTodo (requester id : String) (db : DB) : DB × Except ApiError Unit :=
  if !isValidObjectIdStr id then
    (db, .error (.internalError "Delete failed"))
  else
    match findOwnedTodo db requester id with
    | none => (db, .error (.notFound "Todo not found"))
    | some _ =>
      ({ db with todos := db.todos.eraseP (fun t => t.id = id && t.user = requester) },
       .ok ())

/-- DELETE /api/deleted-todos/:id (src/server.js lines 350-375): same shape
as `softDeleteTodo` over the archive (500 "Permanent delete failed" on a
malformed id, 404 "Deleted todo not found" on no owned match). -/
def purgeDeletedTodo (requester id : String) (db : DB) : DB × Except ApiError Unit :=
  if !isValidObjectIdStr id then
    (db, .error (.internalError "Permanent delete failed"))
  else
    match findOwnedDeletedTodo db requester id with
    | none => (db, .error (.notFound "Deleted todo not found"))
    | some _ =>
      ({ db with
          deletedTodos := db.deletedTodos.eraseP (fun t => t.id = id && t.user = requester) },
       .ok ())

end TodoRoutes

section CommentRoutes

/-- POST /api/todos/:todoId/comments (src/server.js lines 408-446).
`content` is `req.body.content` (`none` when the key is absent); the
`if (!content)` falsiness check rejects exactly a missing or empty string
with the 400. Otherwise the comment is saved with `todoId` taken verbatim
from the path — no check that the todo exists — and the 201 body is the
comment formatted with the populated author. `now` is the clock, `newId`
the ObjectId minted for the new document. -/
def addComment (now : Nat) (requester todoId : String) (content : Option String)
    (newId : String) (db : DB) : DB × Except ApiError CommentView :=
  match content with
  | none => (db, .error (.badRequest "Comment content is required"))
  | some c =>
    if c = "" then (db, .error (.badRequest "Comment content is required"))
    else
      let comment : Comment :=
        { id := newId, todoId := todoId, user := requester, content := c, createdAt := now }
      let db' := { db with comments := db.comments ++ [comment] }
      match lookupUser db' requester with
      | none => (db', .error (.internalError "populate failed"))
      | some u =>
        (db', .ok { id := newId, content := c, createdAt := now, user := userView u })

/-- DELETE /api/todos/:todoId/comments/:commentId (src/server.js lines
449-496). `findOne({_id: commentId, todoId})` — casting a malformed
commentId throws (500); no match is the 404. The requester may delete when
they are the comment's author; otherwise the todo is looked up (a malformed
todoId makes `findById` throw, 500) and they may delete when they own it;
anyone else gets the 403. Deletion is `findOneAndDelete({_id: commentId})`. -/
def deleteComment (requester todoId commentId : String) (db : DB) :
    DB × Except ApiError Unit :=
  if !isValidObjectIdStr commentId then
    (db, .error (.internalError "CastError"))
  else
    match db.comments.find? (fun c => c.id = commentId && c.todoId = todoId) with
    | none => (db, .error (.notFound "Comment not found"))
    | some comment =>
      let isCommentCreator := comment.user == requester
      if isCommentCreator then
        ({ db with comments := db.comments.eraseP (fun c => c.id = commentId) }, .ok ())
      else if !isValidObjectIdStr todoId then
        (db, .error (.internalError "CastError"))
      else
        let isTodoOwner := match findTodo db todoId with
          | some todo => todo.user == requester
          | none => false
        if !isTodoOwner then
          (db, .error (.forbidden
            "Permission denied. You can only delete your own comments or comments on your todos."))
        else
          ({ db with comments := db.comments.eraseP (fun c => c.id = commentId) }, .ok ())

end CommentRoutes

section AssignRoutes

/-- Models `todo.assignedUsers.push(userId); await todo.save()` — the first
todo with that id gets the user appended to its `assignedUsers`. -/
def assignStore (todoId userId : String) (db : DB) : DB :=
  { db with
    todos := updateFirst (fun t => t.id = todoId)
      (fun t => { t with assignedUsers := t.assignedUsers ++ [userId] })
      db.todos }

/-- POST /api/todos/:todoId/assign/:userId (src/server.js lines 547-581).
`Todo.findById(todoId)` (malformed id: cast throws, 500), 404 "Todo not
found" if absent; `User.findById(userId)` likewise, 404 "User not found" if
absent; the user id is pushed onto `assignedUsers` only when not already
present; the 200 body re-fetches the todo and maps its populated
assignees. -/
def assignUser (_requester : String) (todoId userId : String) (db : DB) :
    DB × Except ApiError (List UserView) :=
  if !isValidObjectIdStr todoId then
    (db, .error (.internalError "CastError"))
  else
    match findTodo db todoId with
    | none => (db, .error (.notFound "Todo not found"))
    | some todo =>
      if !isValidObjectIdStr userId then
        (db, .error (.internalError "CastError"))
      else
        match lookupUser db userId with
        | none => (db, .error (.notFound "User not found"))
        | some _ =>
          let db' :=
            if todo.assignedUsers.contains userId then db
            else assignStore todoId userId db
          match findTodo db' todoId with
          | none => (db', .error (.internalError "refetch failed"))
          | some t2 =>
            (db', .ok ((resolvedAssignees db' t2).map assignView))

end AssignRoutes

section ListSpec

/-- Referential integrity of the store: every owner and every assignee
reference on a stored todo resolves to a user. -/
def refIntegrity (db : DB) : Prop :=
  ∀ t ∈ db.todos, (lookupUser db t.user).isSome = true ∧
    ∀ a ∈ t.assignedUsers, (lookupUser db a).isSome = true

instance refIntegrityDecidable (db : DB) : Decidable (refIntegrity db) := by
  unfold refIntegrity
  infer_instance

/-- Correspondence between a stored todo and its formatted view in the
GET /api/todos response, phrased after the spec: the flags are
`isCreator = (requester is the owner)` and
`isAssigned = (requester ∈ assignedUsers)`, and the owner and assignees
carry resolved display info. -/
def viewMatches (db : DB) (requester : String) (t : Todo) (v : TodoView) : Prop :=
  v.id = t.id ∧ v.title = t.title ∧ v.completed = t.completed ∧
  v.createdAt = t.createdAt ∧ v.updatedAt = t.updatedAt ∧ v.completedAt = t.completedAt ∧
  v.isCreator = decide (t.user = requester) ∧
  v.isAssigned = decide (requester ∈ t.assignedUsers) ∧
  (∃ u, lookupUser db t.user = some u ∧ v.owner = userView u) ∧
  v.assignedUsers = (resolvedAssignees db t).map userView

end ListSpec

section Fixtures

/-- Concrete user for witness instances. -/
def wAlice : User :=
  { id := "aaaaaaaaaaaaaaaaaaaaaaaa", name := "Alice", email := "alice@example.com",
    password := some "hash", picture := some "pa", isGooglePicture := false }

/-- Concrete user for witness instances. -/
def wBob : User :=
  { id := "bbbbbbbbbbbbbbbbbbbbbbbb", name := "Bob", email := "bob@example.com",
    password := some "hash", picture := some "pb", isGooglePicture := false }

/-- Concrete user for witness instances (neither author nor owner). -/
def wCarol : User :=
  { id := "cccccccccccccccccccccccc", name := "Carol", email := "carol@example.com",
    password := some "hash", picture := none, isGooglePicture := false }

/-- Concrete todo owned by Alice with Bob assigned. -/
def wTodo : Todo :=
  { id := "dddddddddddddddddddddddd", title := "Buy milk", completed := false,
    createdAt := 0, updatedAt := none, completedAt := none,
    user := "aaaaaaaaaaaaaaaaaaaaaaaa", assignedUsers := ["bbbbbbbbbbbbbbbbbbbbbbbb"] }

/-- Concrete comment by Bob on `wTodo`. -/
def wComment : Comment :=
  { id := "eeeeeeeeeeeeeeeeeeeeeeee", todoId := "dddddddddddddddddddddddd",
    user := "bbbbbbbbbbbbbbbbbbbbbbbb", content := "nice", createdAt := 2 }

/-- Concrete archived todo owned by Alice. -/
def wDeleted : DeletedTodo :=
  { id := "ffffffffffffffffffffffff", title := "Old", completed := true,
    createdAt := some 0, updatedAt := none, completedAt := some 1, deletedAt := 3,
    originalId := "dddddddddddddddddddddddd", user := "aaaaaaaaaaaaaaaaaaaaaaaa" }

/-- Concrete update payload for the C1 witness: body
`{title: "hijack", completed: true}`. -/
def wHijackPayload : UpdatePayload :=
  { title := some "hijack", completed := some true, createdAt := none,
    updatedAtKey := false, completedAt := none, user := none,
    assignedUsers := none, otherKeys := [] }

/-- Concrete update payload for the C3 witness: body
`{title: "Buy oat milk", completed: true}` — a retitle and a completion in
one call. -/
def wRetitlePayload : UpdatePayload :=
  { title := some "Buy oat milk", completed := some true, createdAt := none,
    updatedAtKey := false, completedAt := none, user := none,
    assignedUsers := none, otherKeys := [] }

/-- Concrete store for witness instances. -/
def wDb : DB :=
  { users := [wAlice, wBob, wCarol], todos := [wTodo],
    deletedTodos := [wDeleted], comments := [wComment] }

end Fixtures

/-! ## Theorems -/

section PasswordTheorems

/-- Membership in an optional singleton block of `validatePassword`. -/
lemma mem_ite_singleton {c : Prop} [Decidable c] {x a : String} :
    (x ∈ if c then [a] else ([] : List String)) ↔ c ∧ x = a := by
  split <;> simp_all

/-- The five rule messages are pairwise distinct. -/
lemma errMsgs_pairwise :
    List.Pairwise (fun a b => a ≠ b)
      [lengthErrMsg, upperErrMsg, lowerErrMsg, numberErrMsg, specialErrMsg] := by
  decide

lemma validatePassword_mem_length (p : String) :
    lengthErrMsg ∈ validatePassword p ↔ p.length < 8 := by
  have h := errMsgs_pairwise
  simp [List.pairwise_cons] at h
  obtain ⟨⟨h1, h2, h3, h4⟩, ⟨h5, h6, h7⟩, ⟨h8, h9⟩, h10⟩ := h
  simp [validatePassword, mem_ite_singleton, h1, h2, h3, h4]

lemma validatePassword_mem_upper (p : String) :
    upperErrMsg ∈ validatePassword p ↔ ¬ hasUpperCase p := by
  have h := errMsgs_pairwise
  simp [List.pairwise_cons] at h
  obtain ⟨⟨h1, h2, h3, h4⟩, ⟨h5, h6, h7⟩, ⟨h8, h9⟩, h10⟩ := h
  simp [validatePassword, mem_ite_singleton, Ne.symm h1, h5, h6, h7]

lemma validatePassword_mem_lower (p : String) :
    lowerErrMsg ∈ validatePassword p ↔ ¬ hasLowerCase p := by
  have h := errMsgs_pairwise
  simp [List.pairwise_cons] at h
  obtain ⟨⟨h1, h2, h3, h4⟩, ⟨h5, h6, h7⟩, ⟨h8, h9⟩, h10⟩ := h
  simp [validatePassword, mem_ite_singleton, Ne.symm h2, Ne.symm h5, h8, h9]

lemma validatePassword_mem_number (p : String) :
    numberErrMsg ∈ validatePassword p ↔ ¬ hasNumbers p := by
  have h := errMsgs_pairwise
  simp [List.pairwise_cons] at h
  obtain ⟨⟨h1, h2, h3, h4⟩, ⟨h5, h6, h7⟩, ⟨h8, h9⟩, h10⟩ := h
  simp [validatePassword, mem_ite_singleton, Ne.symm h3, Ne.symm h6, Ne.symm h8, h10]

lemma validatePassword_mem_special (p : String) :
    specialErrMsg ∈ validatePassword p ↔ ¬ hasSpecialChar p := by
  have h := errMsgs_pairwise
  simp [List.pairwise_cons] at h
  obtain ⟨⟨h1, h2, h3, h4⟩, ⟨h5, h6, h7⟩, ⟨h8, h9⟩, h10⟩ := h
  simp [validatePassword, mem_ite_singleton, Ne.symm h4, Ne.symm h7, Ne.symm h9, Ne.symm h10]

lemma validatePassword_nil_iff (p : String) :
    validatePassword p = [] ↔
      8 ≤ p.length ∧ hasUpperCase p ∧ hasLowerCase p ∧ hasNumbers p ∧ hasSpecialChar p := by
  by_cases hl : p.length < 8 <;>
    by_cases hu : hasUpperCase p <;>
      by_cases hlo : hasLowerCase p <;>
        by_cases hn : hasNumbers p <;>
          by_cases hs : hasSpecialChar p <;>
            simp_all [validatePassword, Nat.not_lt]

/-- C7: registration's password policy checks length ≥ 8, an upper-case
letter, a lower-case letter, a digit and a special character; the rejection
collects every violated rule, not only the first (each rule's message is
present in the list exactly when that rule is violated); "abc" violates the
length, upper-case, digit and special-character rules simultaneously and is
rejected, while "Abcdef1!" violates none and is accepted. -/
theorem registration_password_policy :
    validatePassword "abc" = [lengthErrMsg, upperErrMsg, numberErrMsg, specialErrMsg] ∧
    (registerPasswordGate "abc").isSome = true ∧
    validatePassword "Abcdef1!" = [] ∧
    registerPasswordGate "Abcdef1!" = none ∧
    (∀ p : String,
      (validatePassword p = [] ↔
        8 ≤ p.length ∧ hasUpperCase p ∧ hasLowerCase p ∧ hasNumbers p ∧ hasSpecialChar p) ∧
      (lengthErrMsg ∈ validatePassword p ↔ p.length < 8) ∧
      (upperErrMsg ∈ validatePassword p ↔ ¬ hasUpperCase p) ∧
      (lowerErrMsg ∈ validatePassword p ↔ ¬ hasLowerCase p) ∧
      (numberErrMsg ∈ validatePassword p ↔ ¬ hasNumbers p) ∧
      (specialErrMsg ∈ validatePassword p ↔ ¬ hasSpecialChar p) ∧
      (registerPasswordGate p = none ↔ validatePassword p = [])) := by
  refine ⟨by decide, by decide, by decide, by decide, fun p => ?_⟩
  refine ⟨validatePassword_nil_iff p, validatePassword_mem_length p,
    validatePassword_mem_upper p, validatePassword_mem_lower p,
    validatePassword_mem_number p, validatePassword_mem_special p, ?_⟩
  constructor
  · intro hg
    by_contra hne
    have hlen : 0 < (validatePassword p).length := List.length_pos.mpr hne
    simp [registerPasswordGate, hlen] at hg
  · intro hnil
    simp [registerPasswordGate, hnil]

end PasswordTheorems

section AuthTheorems

/-- C4: with the signing secret configured (the server refuses to start
otherwise), the auth gate responds 401 "Please authenticate." in exactly
three cases — no bearer token in the authorization header, token
verification failure, or the token's user id not existing in the store —
and otherwise attaches exactly the user the verified token references. -/
theorem authGate_unauthenticated_cases (db : DB) (verify : String → Option String)
    (header : Option String) :
    (∀ e : ApiError, authGate db true verify header = .error e ↔
      (e = .unauthenticated "Please authenticate." ∧
        (extractBearerToken header = none ∨
         (∃ tok, extractBearerToken header = some tok ∧ verify tok = none) ∨
         (∃ tok uid, extractBearerToken header = some tok ∧ verify tok = some uid ∧
            lookupUser db uid = none)))) ∧
    (∀ u : User, authGate db true verify header = .ok u ↔
      ∃ tok uid, extractBearerToken header = some tok ∧ verify tok = some uid ∧
        lookupUser db uid = some u) := by
  constructor <;> intro x <;>
  · cases hE : extractBearerToken header with
    | none => simp [authGate, hE, eq_comm]
    | some tok =>
      cases hV : verify tok with
      | none => simp [authGate, hE, hV, eq_comm]
      | some uid =>
        cases hU : lookupUser db uid with
        | none => simp [authGate, hE, hV, hU, eq_comm]
        | some u' => simp [authGate, hE, hV, hU, eq_comm]

end AuthTheorems

section OwnerScopingTheorems

/-- C1: update and soft-delete query scoped to `{todoId, owner = requester}`:
for any well-formed todoId with no todo of that id owned by the requester
(which includes the case of a todo the requester is merely assigned to),
both operations return the 404 and leave the store unchanged; neither
operation ever returns a 403. -/
theorem update_softDelete_owner_scoped
    (db : DB) (now : Nat) (requester todoId : String) (p : UpdatePayload)
    (hval : isValidObjectIdStr todoId = true)
    (hnone : findOwnedTodo db requester todoId = none) :
    updateTodo now requester todoId p db = (db, .error (.notFound "Todo not found")) ∧
    softDeleteTodo requester todoId db = (db, .error (.notFound "Todo not found")) ∧
    (∀ (db' : DB) (now' : Nat) (r id : String) (q : UpdatePayload) (m : String),
      (updateTodo now' r id q db').2 ≠ .error (.forbidden m) ∧
      (softDeleteTodo r id db').2 ≠ .error (.forbidden m)) := by
  refine ⟨by simp [updateTodo, hval, hnone], by simp [softDeleteTodo, hval, hnone], ?_⟩
  intro db' now' r id q m
  constructor
  · simp only [updateTodo]
    split
    · simp
    · cases findOwnedTodo db' r id <;> simp
  · simp only [softDeleteTodo]
    split
    · simp
    · cases findOwnedDeletedTodo db' r id <;> cases findOwnedTodo db' r id <;> simp

/-- Witness for C1: Bob is only an assignee of Alice's todo; his update and
soft-delete attempts both 404 and change nothing. -/
theorem update_softDelete_owner_scoped_witness :
    (isValidObjectIdStr "dddddddddddddddddddddddd" = true ∧
      findOwnedTodo wDb "bbbbbbbbbbbbbbbbbbbbbbbb" "dddddddddddddddddddddddd" = none) ∧
    (updateTodo 7 "bbbbbbbbbbbbbbbbbbbbbbbb" "dddddddddddddddddddddddd"
        wHijackPayload wDb = (wDb, .error (.notFound "Todo not found")) ∧
      softDeleteTodo "bbbbbbbbbbbbbbbbbbbbbbbb" "dddddddddddddddddddddddd" wDb =
        (wDb, .error (.notFound "Todo not found")) ∧
      (∀ (db' : DB) (now' : Nat) (r id : String) (q : UpdatePayload) (m : String),
        (updateTodo now' r id q db').2 ≠ .error (.forbidden m) ∧
        (softDeleteTodo r id db').2 ≠ .error (.forbidden m))) :=
  ⟨⟨by decide, by decide⟩,
    update_softDelete_owner_scoped wDb 7 "bbbbbbbbbbbbbbbbbbbbbbbb"
      "dddddddddddddddddddddddd" wHijackPayload (by decide) (by decide)⟩

lemma applyUpdate_updatedAt (now : Nat) (p : UpdatePayload) (t : Todo) :
    (applyUpdate now p t).updatedAt =
      if hasKeyOtherThanCompleted p then some now else t.updatedAt := rfl

lemma applyUpdate_completedAt (now : Nat) (p : UpdatePayload) (t : Todo) :
    (applyUpdate now p t).completedAt =
      match p.completed with
      | some b => if b then some now else none
      | none =>
        match p.completedAt with
        | some v => v
        | none => t.completedAt := rfl

/-- C3: on an update of a todo the requester owns, `updatedAt` is set to now
exactly when the payload holds a key other than `completed` (a
completion-only toggle leaves it untouched); when the payload holds
`completed`, `completedAt` becomes now for `true` and null for `false`;
both effects can land in one call. When `completed` is absent, `completedAt`
moves only by an explicit client-supplied `completedAt` key. -/
theorem updateTodo_timestamp_policy
    (db : DB) (now : Nat) (requester todoId : String) (p : UpdatePayload) (t : Todo)
    (hval : isValidObjectIdStr todoId = true)
    (hfound : findOwnedTodo db requester todoId = some t) :
    ∃ t', (updateTodo now requester todoId p db).2 = .ok t' ∧
      (hasKeyOtherThanCompleted p = true → t'.updatedAt = some now) ∧
      (hasKeyOtherThanCompleted p = false → t'.updatedAt = t.updatedAt) ∧
      (p.completed = some true → t'.completedAt = some now) ∧
      (p.completed = some false → t'.completedAt = none) ∧
      (p.completed = none → p.completedAt = none → t'.completedAt = t.completedAt) := by
  refine ⟨applyUpdate now p t, by simp [updateTodo, hval, hfound], ?_, ?_, ?_, ?_, ?_⟩
  · intro h
    simp [applyUpdate_updatedAt, h]
  · intro h
    simp [applyUpdate_updatedAt, h]
  · intro h
    simp [applyUpdate_completedAt, h]
  · intro h
    simp [applyUpdate_completedAt, h]
  · intro h1 h2
    simp [applyUpdate_completedAt, h1, h2]

/-- Witness for C3: Alice retitles and completes her todo in one call. -/
theorem updateTodo_timestamp_policy_witness :
    (isValidObjectIdStr "dddddddddddddddddddddddd" = true ∧
      findOwnedTodo wDb "aaaaaaaaaaaaaaaaaaaaaaaa" "dddddddddddddddddddddddd" = some wTodo) ∧
    (∃ t', (updateTodo 9 "aaaaaaaaaaaaaaaaaaaaaaaa" "dddddddddddddddddddddddd"
        wRetitlePayload wDb).2 = .ok t' ∧
      (hasKeyOtherThanCompleted wRetitlePayload = true → t'.updatedAt = some 9) ∧
      (hasKeyOtherThanCompleted wRetitlePayload = false →
        t'.updatedAt = wTodo.updatedAt) ∧
      (wRetitlePayload.completed = some true → t'.completedAt = some 9) ∧
      (wRetitlePayload.completed = some false → t'.completedAt = none) ∧
      (wRetitlePayload.completed = none → wRetitlePayload.completedAt = none →
        t'.completedAt = wTodo.completedAt)) :=
  ⟨⟨by decide, by decide⟩,
    updateTodo_timestamp_policy wDb 9 "aaaaaaaaaaaaaaaaaaaaaaaa"
      "dddddddddddddddddddddddd" wRetitlePayload wTodo
      (by decide) (by decide)⟩

end OwnerScopingTheorems

section DeleteRouteTheorems

/-- C10: a malformed `:id` makes the two DELETE routes answer 500 (ObjectId
construction throws before any lookup), never 404; the 404 comes exactly
from a well-formed id matching no record owned by the requester. -/
theorem deleteRoutes_malformed_id (db : DB) (requester id : String) :
    (isValidObjectIdStr id = false →
      softDeleteTodo requester id db = (db, .error (.internalError "Delete failed")) ∧
      purgeDeletedTodo requester id db =
        (db, .error (.internalError "Permanent delete failed"))) ∧
    ((softDeleteTodo requester id db).2 = .error (.notFound "Todo not found") ↔
      isValidObjectIdStr id = true ∧ findOwnedTodo db requester id = none) ∧
    ((purgeDeletedTodo requester id db).2 = .error (.notFound "Deleted todo not found") ↔
      isValidObjectIdStr id = true ∧ findOwnedDeletedTodo db requester id = none) := by
  refine ⟨fun h => ⟨by simp [softDeleteTodo, h], by simp [purgeDeletedTodo, h]⟩, ?_, ?_⟩
  · by_cases h : isValidObjectIdStr id
    · cases hf : findOwnedTodo db requester id <;> simp [softDeleteTodo, h, hf]
    · simp [softDeleteTodo, Bool.of_not_eq_true h]
  · by_cases h : isValidObjectIdStr id
    · cases hf : findOwnedDeletedTodo db requester id <;> simp [purgeDeletedTodo, h, hf]
    · simp [purgeDeletedTodo, Bool.of_not_eq_true h]

/-- Witness for C10: "not-an-objectid" is not a well-formed ObjectId, and
both DELETE routes answer 500 on it. -/
theorem deleteRoutes_malformed_id_witness :
    softDeleteTodo "aaaaaaaaaaaaaaaaaaaaaaaa" "not-an-objectid" wDb =
      (wDb, .error (.internalError "Delete failed")) ∧
    purgeDeletedTodo "aaaaaaaaaaaaaaaaaaaaaaaa" "not-an-objectid" wDb =
      (wDb, .error (.internalError "Permanent delete failed")) :=
  (deleteRoutes_malformed_id wDb "aaaaaaaaaaaaaaaaaaaaaaaa" "not-an-objectid").1 (by decide)

end DeleteRouteTheorems

section CommentTheorems

/-- C9: addComment never looks the todo up: whatever the todoId string —
also one naming no stored Todo — a non-empty content from an authenticated
requester is stored verbatim and answered 201 with the formatted comment. -/
theorem addComment_no_existence_check
    (db : DB) (now : Nat) (requester todoId newId c : String) (u : User)
    (hc : c ≠ "")
    (hu : lookupUser db requester = some u) :
    addComment now requester todoId (some c) newId db =
      ({ db with comments := db.comments ++
          [{ id := newId, todoId := todoId, user := requester,
             content := c, createdAt := now }] },
       .ok { id := newId, content := c, createdAt := now, user := userView u }) := by
  simp only [addComment, hc, if_false, lookupUser] at *
  simp [hu]

/-- Witness for C9: Bob comments on a todoId that names no stored todo;
the comment is stored and the 201 view returned. -/
theorem addComment_no_existence_check_witness :
    findTodo wDb "0123456789ab0123456789ab" = none ∧
    addComment 11 "bbbbbbbbbbbbbbbbbbbbbbbb" "0123456789ab0123456789ab" (some "hello")
        "abcdefabcdefabcdefabcdef" wDb =
      ({ wDb with comments := wDb.comments ++
          [{ id := "abcdefabcdefabcdefabcdef", todoId := "0123456789ab0123456789ab",
             user := "bbbbbbbbbbbbbbbbbbbbbbbb", content := "hello", createdAt := 11 }] },
       .ok { id := "abcdefabcdefabcdefabcdef", content := "hello", createdAt := 11,
             user := userView wBob }) :=
  ⟨by decide,
    addComment_no_existence_check wDb 11 "bbbbbbbbbbbbbbbbbbbbbbbb"
      "0123456789ab0123456789ab" "abcdefabcdefabcdefabcdef" "hello" wBob
      (by decide) (by decide)⟩

/-- C8 counterexample: the content " " consists only of whitespace, yet
addComment does not answer the EmptyContent 400 — the `if (!content)`
falsiness check passes any non-empty string, so the blank comment is stored
and answered 201. -/
theorem addComment_blank_content_counterexample :
    (" ").toList.all (fun c => c = ' ') = true ∧
    addComment 4 "bbbbbbbbbbbbbbbbbbbbbbbb" "dddddddddddddddddddddddd" (some " ")
        "abcdefabcdefabcdefabcdef" wDb =
      ({ wDb with comments := wDb.comments ++
          [{ id := "abcdefabcdefabcdefabcdef", todoId := "dddddddddddddddddddddddd",
             user := "bbbbbbbbbbbbbbbbbbbbbbbb", content := " ", createdAt := 4 }] },
       .ok { id := "abcdefabcdefabcdefabcdef", content := " ", createdAt := 4,
             user := userView wBob }) := by
  exact ⟨by decide, rfl⟩

/-- C8 amended: addComment fails with the EmptyContent 400 exactly when the
content is missing or the empty string; any other content — whitespace-only
included — is accepted and appended to the store. -/
theorem addComment_empty_check (now : Nat) (requester todoId newId : String)
    (content : Option String) (db : DB) :
    ((addComment now requester todoId content newId db).2 =
        .error (.badRequest "Comment content is required") ↔
      content = none ∨ content = some "") ∧
    ((addComment now requester todoId content newId db).1 =
      match content with
      | none => db
      | some c =>
        if c = "" then db
        else { db with comments := db.comments ++
            [{ id := newId, todoId := todoId, user := requester,
               content := c, createdAt := now }] }) := by
  rcases content with _ | c
  · simp [addComment]
  · by_cases hc : c = ""
    · subst hc; simp [addComment]
    · constructor
      · simp only [addComment, hc, if_false]
        cases lookupUser { db with comments := db.comments ++
            [{ id := newId, todoId := todoId, user := requester,
               content := c, createdAt := now }] } requester <;> simp [hc]
      · simp only [addComment, hc, if_false]
        cases lookupUser { db with comments := db.comments ++
            [{ id := newId, todoId := todoId, user := requester,
               content := c, createdAt := now }] } requester <;> simp [hc]

/-- C2: deleteComment 404s exactly when no comment with that id references
that todoId; otherwise it removes the comment exactly when the requester is
the comment's author or owns the referenced todo, and 403s for everyone
else (an assignee who is neither included). -/
theorem deleteComment_permission_policy
    (db : DB) (requester todoId commentId : String)
    (hvc : isValidObjectIdStr commentId = true)
    (hvt : isValidObjectIdStr todoId = true) :
    (db.comments.find? (fun c => c.id = commentId && c.todoId = todoId) = none →
      deleteComment requester todoId commentId db =
        (db, .error (.notFound "Comment not found"))) ∧
    (∀ comment,
      db.comments.find? (fun c => c.id = commentId && c.todoId = todoId) = some comment →
      ((comment.user = requester ∨
          (∃ todo, findTodo db todoId = some todo ∧ todo.user = requester)) →
        deleteComment requester todoId commentId db =
          ({ db with comments := db.comments.eraseP (fun c => c.id = commentId) }, .ok ())) ∧
      (¬(comment.user = requester ∨
          (∃ todo, findTodo db todoId = some todo ∧ todo.user = requester)) →
        deleteComment requester todoId commentId db =
          (db, .error (.forbidden
            "Permission denied. You can only delete your own comments or comments on your todos.")))) := by
  constructor
  · intro hnone
    simp [deleteComment, hvc, hnone]
  · intro comment hsome
    constructor
    · rintro (hauthor | ⟨todo, htodo, howner⟩)
      · simp [deleteComment, hvc, hsome, hauthor]
      · by_cases hauthor : comment.user = requester
        · simp [deleteComment, hvc, hsome, hauthor]
        · simp [deleteComment, hvc, hvt, hsome, hauthor, htodo, howner]
    · intro hnot
      push_neg at hnot
      obtain ⟨hauthor, howner⟩ := hnot
      simp only [deleteComment, hvc, hsome]
      cases htodo : findTodo db todoId with
      | none => simp [hvc, hvt, hsome, hauthor, htodo]
      | some todo =>
        have : ¬ todo.user = requester := fun h => howner todo htodo h
        simp [hvc, hvt, hsome, hauthor, htodo, this]

/-- Witness for C2: Bob deletes his own comment on Alice's todo — author
privilege removes it. -/
theorem deleteComment_permission_policy_witness :
    deleteComment "bbbbbbbbbbbbbbbbbbbbbbbb" "dddddddddddddddddddddddd"
        "eeeeeeeeeeeeeeeeeeeeeeee" wDb =
      ({ wDb with
          comments := wDb.comments.eraseP (fun c => c.id = "eeeeeeeeeeeeeeeeeeeeeeee") },
       .ok ()) :=
  ((deleteComment_permission_policy wDb "bbbbbbbbbbbbbbbbbbbbbbbb"
      "dddddddddddddddddddddddd" "eeeeeeeeeeeeeeeeeeeeeeee"
      (by decide) (by decide)).2 wComment (by decide)).1 (Or.inl (by decide))

end CommentTheorems

section AssignTheorems

/-- After `updateFirst`, `find?` with the same predicate returns the updated
element, provided updating preserves the predicate. -/
lemma find?_updateFirst {α : Type} (p : α → Bool) (f : α → α) (l : List α)
    (hf : ∀ a, p a = true → p (f a) = true) (a : α) (h : l.find? p = some a) :
    (updateFirst p f l).find? p = some (f a) := by
  induction l with
  | nil => simp at h
  | cons x xs ih =>
    by_cases hx : p x
    · have hax : a = x := by
        rw [List.find?_cons_of_pos _ hx] at h
        exact (Option.some.inj h).symm
      subst hax
      rw [show updateFirst p f (a :: xs) = f a :: xs from by simp [updateFirst, hx]]
      exact List.find?_cons_of_pos _ (hf a hx)
    · rw [List.find?_cons_of_neg _ hx] at h
      rw [show updateFirst p f (x :: xs) = x :: updateFirst p f xs from by
        simp [updateFirst, hx]]
      rw [List.find?_cons_of_neg _ hx]
      exact ih h

/-- Re-fetching after the save finds the todo with the appended assignee. -/
lemma findTodo_assignStore (db : DB) (todoId userId : String) (t : Todo)
    (ht : findTodo db todoId = some t) :
    findTodo (assignStore todoId userId db) todoId =
      some { t with assignedUsers := t.assignedUsers ++ [userId] } := by
  have := find?_updateFirst (fun x : Todo => x.id = todoId)
    (fun x => { x with assignedUsers := x.assignedUsers ++ [userId] })
    db.todos (fun a ha => by simpa using ha) t (by simpa [findTodo] using ht)
  simpa [findTodo, assignStore] using this

/-- Evaluation of a successful first-time assignment. -/
lemma assignUser_eq_of_new (db : DB) (requester todoId userId : String)
    (t : Todo) (u : User)
    (hvt : isValidObjectIdStr todoId = true) (hvu : isValidObjectIdStr userId = true)
    (ht : findTodo db todoId = some t) (hu : lookupUser db userId = some u)
    (hmem : userId ∉ t.assignedUsers) :
    assignUser requester todoId userId db =
      (assignStore todoId userId db,
       .ok ((resolvedAssignees (assignStore todoId userId db)
          { t with assignedUsers := t.assignedUsers ++ [userId] }).map assignView)) := by
  have hc : t.assignedUsers.contains userId = false := by
    simpa using hmem
  simp only [assignUser, hvt, hvu, ht, hu, hc, Bool.not_true, Bool.false_eq_true,
    if_false, findTodo_assignStore db todoId userId t ht]

/-- Evaluation of an assignment of an already-assigned user. -/
lemma assignUser_eq_of_mem (db : DB) (requester todoId userId : String)
    (t : Todo) (u : User)
    (hvt : isValidObjectIdStr todoId = true) (hvu : isValidObjectIdStr userId = true)
    (ht : findTodo db todoId = some t) (hu : lookupUser db userId = some u)
    (hmem : userId ∈ t.assignedUsers) :
    assignUser requester todoId userId db =
      (db, .ok ((resolvedAssignees db t).map assignView)) := by
  have hc : t.assignedUsers.contains userId = true := by
    simpa using hmem
  simp only [assignUser, hvt, hvu, ht, hu, hc, if_true]
  simp [ht]

/-- C6: assign 404s when the todo or the user is absent; assigning a user
already in `assignedUsers` changes nothing; and a successful first assign of
an unassigned user yields exactly one entry for them, with a second
identical assign leaving the store as it was. -/
theorem assignUser_idempotent
    (db : DB) (requester todoId userId : String)
    (hvt : isValidObjectIdStr todoId = true)
    (hvu : isValidObjectIdStr userId = true) :
    (findTodo db todoId = none →
      assignUser requester todoId userId db = (db, .error (.notFound "Todo not found"))) ∧
    (∀ t, findTodo db todoId = some t → lookupUser db userId = none →
      assignUser requester todoId userId db = (db, .error (.notFound "User not found"))) ∧
    (∀ t u, findTodo db todoId = some t → lookupUser db userId = some u →
      userId ∈ t.assignedUsers →
      (assignUser requester todoId userId db).1 = db) ∧
    (∀ t u, findTodo db todoId = some t → lookupUser db userId = some u →
      t.assignedUsers.count userId = 0 →
      ∃ t', findTodo (assignUser requester todoId userId db).1 todoId = some t' ∧
        t'.assignedUsers.count userId = 1 ∧
        (assignUser requester todoId userId
            ((assignUser requester todoId userId db).1)).1 =
          (assignUser requester todoId userId db).1) := by
  refine ⟨fun h => by simp [assignUser, hvt, hvu, h], ?_, ?_, ?_⟩
  · intro t ht hu
    simp [assignUser, hvt, hvu, ht, hu]
  · intro t u ht hu hmem
    rw [assignUser_eq_of_mem db requester todoId userId t u hvt hvu ht hu hmem]
  · intro t u ht hu hcount
    have hmem : userId ∉ t.assignedUsers := List.count_eq_zero.mp hcount
    have h1 := assignUser_eq_of_new db requester todoId userId t u hvt hvu ht hu hmem
    set t' : Todo := { t with assignedUsers := t.assignedUsers ++ [userId] } with ht'
    have hfind2 : findTodo (assignUser requester todoId userId db).1 todoId = some t' := by
      rw [h1]
      exact findTodo_assignStore db todoId userId t ht
    refine ⟨t', hfind2, ?_, ?_⟩
    · simp [ht', hcount]
    · have husers : (assignUser requester todoId userId db).1.users = db.users := by
        rw [h1]
        simp [assignStore]
      have hu2 : lookupUser (assignUser requester todoId userId db).1 userId = some u := by
        rw [show lookupUser (assignUser requester todoId userId db).1 userId =
            db.users.find? (fun x => x.id = userId) from by rw [lookupUser, husers]]
        simpa [lookupUser] using hu
      have hmem2 : userId ∈ t'.assignedUsers := by
        simp [ht']
      rw [assignUser_eq_of_mem (assignUser requester todoId userId db).1 requester
        todoId userId t' u hvt hvu hfind2 hu2 hmem2]

/-- Witness for C6: Alice assigns Carol (not yet assigned) to her todo; Carol
ends with exactly one entry, and repeating the assign changes nothing. -/
theorem assignUser_idempotent_witness :
    ∃ t', findTodo (assignUser "aaaaaaaaaaaaaaaaaaaaaaaa" "dddddddddddddddddddddddd"
        "cccccccccccccccccccccccc" wDb).1 "dddddddddddddddddddddddd" = some t' ∧
      t'.assignedUsers.count "cccccccccccccccccccccccc" = 1 ∧
      (assignUser "aaaaaaaaaaaaaaaaaaaaaaaa" "dddddddddddddddddddddddd"
          "cccccccccccccccccccccccc"
          ((assignUser "aaaaaaaaaaaaaaaaaaaaaaaa" "dddddddddddddddddddddddd"
            "cccccccccccccccccccccccc" wDb).1)).1 =
        (assignUser "aaaaaaaaaaaaaaaaaaaaaaaa" "dddddddddddddddddddddddd"
          "cccccccccccccccccccccccc" wDb).1 :=
  (assignUser_idempotent wDb "aaaaaaaaaaaaaaaaaaaaaaaa" "dddddddddddddddddddddddd"
      "cccccccccccccccccccccccc" (by decide) (by decide)).2.2.2
    wTodo wCarol (by decide) (by decide) (by decide)

end AssignTheorems

section ListTheorems

/-- The user returned by a lookup carries the looked-up id. -/
lemma lookupUser_id (db : DB) (i : String) (u : User) (h : lookupUser db i = some u) :
    u.id = i := by
  simp only [lookupUser] at h
  have h' := List.find?_some h
  simpa using h'

/-- String `==` agrees with propositional equality under `decide`. -/
lemma beq_eq_decide (a b : String) : (a == b) = decide (a = b) := by
  by_cases h : a = b <;> simp [h]

/-- Resolving a fully-resolvable reference list preserves the ids in order. -/
lemma filterMap_lookup_ids (db : DB) (l : List String)
    (h : ∀ a ∈ l, (lookupUser db a).isSome = true) :
    (l.filterMap (lookupUser db)).map User.id = l := by
  induction l with
  | nil => simp
  | cons x xs ih =>
    have hx := h x (List.mem_cons_self x xs)
    obtain ⟨u, hu⟩ := Option.isSome_iff_exists.mp hx
    simp [List.filterMap_cons, hu, lookupUser_id db x u hu,
      ih (fun a ha => h a (List.mem_cons_of_mem x ha))]

/-- Under referential integrity of a todo's assignee list, the code's
`some`-over-populated-users test agrees with membership of the requester in
`assignedUsers`. -/
lemma isAssigned_any (db : DB) (r : String) (t : Todo)
    (h : ∀ a ∈ t.assignedUsers, (lookupUser db a).isSome = true) :
    (resolvedAssignees db t).any (fun u => u.id == r) =
      decide (r ∈ t.assignedUsers) := by
  have hids := filterMap_lookup_ids db t.assignedUsers h
  rw [Bool.eq_iff_iff, List.any_eq_true, decide_eq_true_eq]
  constructor
  · rintro ⟨u, hu, hid⟩
    have hid' : u.id = r := by simpa using hid
    exact hids ▸ List.mem_map.mpr ⟨u, hu, hid'⟩
  · intro hr
    rw [← hids] at hr
    obtain ⟨u, hu, hid⟩ := List.mem_map.mp hr
    exact ⟨u, hu, by simp [hid]⟩

/-- A fully-resolvable todo formats successfully, and the view matches. -/
lemma formatListTodo_some (db : DB) (r : String) (t : Todo)
    (ho : (lookupUser db t.user).isSome = true)
    (ha : ∀ a ∈ t.assignedUsers, (lookupUser db a).isSome = true) :
    ∃ v, formatListTodo db r t = some v ∧ viewMatches db r t v := by
  obtain ⟨u, hu⟩ := Option.isSome_iff_exists.mp ho
  refine ⟨{ id := t.id, title := t.title, completed := t.completed,
            createdAt := t.createdAt, updatedAt := t.updatedAt,
            completedAt := t.completedAt,
            owner := userView u, isCreator := t.user == r,
            isAssigned := (resolvedAssignees db t).any (fun x => x.id == r),
            assignedUsers := (resolvedAssignees db t).map userView }, ?_, ?_⟩
  · simp [formatListTodo, hu]
  · exact ⟨rfl, rfl, rfl, rfl, rfl, rfl, beq_eq_decide _ _,
      isAssigned_any db r t ha, ⟨u, hu, rfl⟩, rfl⟩

/-- The code's `$or` filter agrees with the spec's visibility predicate. -/
lemma visibleTo_eq_decide (r : String) (t : Todo) :
    visibleTo r t = decide (t.user = r ∨ r ∈ t.assignedUsers) := by
  by_cases h1 : t.user = r <;> by_cases h2 : r ∈ t.assignedUsers <;>
    simp [visibleTo, h1, h2]

/-- Filter-then-format over any resolvable prefix of the store. -/
lemma listTodos_mapM_aux (db : DB) (r : String) (ts : List Todo)
    (h : ∀ t ∈ ts, (lookupUser db t.user).isSome = true ∧
      ∀ a ∈ t.assignedUsers, (lookupUser db a).isSome = true) :
    ∃ views, (ts.filter (visibleTo r)).mapM (formatListTodo db r) = some views ∧
      List.Forall₂ (viewMatches db r)
        (ts.filter (fun t => decide (t.user = r ∨ r ∈ t.assignedUsers))) views := by
  induction ts with
  | nil => exact ⟨[], rfl, List.Forall₂.nil⟩
  | cons t ts ih =>
    obtain ⟨views, hmap, hfa⟩ := ih (fun x hx => h x (List.mem_cons_of_mem t hx))
    obtain ⟨ho, ha⟩ := h t (List.mem_cons_self t ts)
    by_cases hv : visibleTo r t
    · obtain ⟨v, hfmt, hvm⟩ := formatListTodo_some db r t ho ha
      have hv' : decide (t.user = r ∨ r ∈ t.assignedUsers) = true := by
        rw [← visibleTo_eq_decide]; exact hv
      refine ⟨v :: views, ?_, ?_⟩
      · rw [List.filter_cons_of_pos hv, List.mapM_cons]
        simp only [hfmt, Option.pure_def, Option.bind_eq_bind, Option.some_bind, hmap]
      · have hp : t.user = r ∨ r ∈ t.assignedUsers := of_decide_eq_true hv'
        have hfc : List.filter (fun t => decide (t.user = r ∨ r ∈ t.assignedUsers)) (t :: ts) =
            t :: List.filter (fun t => decide (t.user = r ∨ r ∈ t.assignedUsers)) ts := by
          simp only [List.filter_cons, hv', if_true]
        rw [hfc]
        exact List.Forall₂.cons hvm hfa
    · have hvf : visibleTo r t = false := Bool.of_not_eq_true hv
      have hv' : decide (t.user = r ∨ r ∈ t.assignedUsers) = false := by
        rw [← visibleTo_eq_decide]; exact hvf
      refine ⟨views, ?_, ?_⟩
      · rw [List.filter_cons_of_neg (by simp [hvf])]
        exact hmap
      · have hfc : List.filter (fun t => decide (t.user = r ∨ r ∈ t.assignedUsers)) (t :: ts) =
            List.filter (fun t => decide (t.user = r ∨ r ∈ t.assignedUsers)) ts := by
          simp only [List.filter_cons, hv', Bool.false_eq_true, if_false]
        rw [hfc]
        exact hfa

/-- C5: under referential integrity, GET /api/todos succeeds and returns,
in store order, exactly the todos whose owner is the requester or whose
`assignedUsers` contain the requester, each view carrying
`isCreator = (requester = owner)`, `isAssigned = (requester ∈
assignedUsers)`, and resolved owner/assignee display info. -/
theorem listTodos_exactly_visible (db : DB) (r : String) (h : refIntegrity db) :
    ∃ views, listTodos r db = (db, .ok views) ∧
      List.Forall₂ (viewMatches db r)
        (db.todos.filter (fun t => decide (t.user = r ∨ r ∈ t.assignedUsers))) views := by
  obtain ⟨views, hmap, hfa⟩ := listTodos_mapM_aux db r db.todos h
  refine ⟨views, ?_, hfa⟩
  simp only [listTodos, hmap]

/-- Witness for C5: Bob, an assignee of Alice's only todo, lists todos. -/
theorem listTodos_exactly_visible_witness :
    refIntegrity wDb ∧
    (∃ views, listTodos "bbbbbbbbbbbbbbbbbbbbbbbb" wDb = (wDb, .ok views) ∧
      List.Forall₂ (viewMatches wDb "bbbbbbbbbbbbbbbbbbbbbbbb")
        (wDb.todos.filter (fun t => decide (t.user = "bbbbbbbbbbbbbbbbbbbbbbbb" ∨
          "bbbbbbbbbbbbbbbbbbbbbbbb" ∈ t.assignedUsers))) views) :=
  ⟨by decide, listTodos_exactly_visible wDb "bbbbbbbbbbbbbbbbbbbbbbbb" (by decide)⟩

end ListTheorems

end TodoBackend
